import Mathlib

/-!
Verification of the pharmaintel dashboard (src/app.py) against its
natural-language specification.

The file shallowly embeds the parts of `app.py` the claims are about:
the keyword normalization performed by the top-level script
(app.py lines 320-324), the fetcher functions (their processing of one
HTTP outcome), the `globals()`-based dispatch of the aggregation loop
(app.py line 333), and the `initial_authorities` registry.

Conventions of the embedding:
  * Machine I/O is made explicit: each fetcher takes, besides its Python
    arguments, the outcome of its single `requests.get` call
    (`HttpOutcome`): either a raised transport exception (timeout /
    connection error) or a response with status, Content-Type header and
    an already-parsed body.
  * A Python exception that the fetcher does not catch is modelled as
    `Except.error` (`PyError`); a normal return is `Except.ok`.
    Fetchers whose modelled paths cannot raise return plain values.
  * Calls to `log_and_display_error` are modelled as a list of `Report`
    values accompanying the returned records.
-/

set_option linter.unusedVariables false

/-- A normalized result row: an ordered mapping from field name to string
value, as built by the Python dict literals in each fetcher. -/
abbrev Record := List (String × String)

/-- What a fetcher reports through `log_and_display_error`:
`fetchError` for a caught `requests.exceptions.RequestException`
(timeout, connection error, HTTP error status), `formatError` for
"Response content is not in JSON format", `noResults` for
"No trials/approvals found". -/
inductive Report where
  | fetchError
  | formatError
  | noResults
deriving DecidableEq, Repr

/-- A Python exception that escapes a fetcher uncaught. -/
inductive PyError where
  | indexError
  | typeError
deriving DecidableEq, Repr

deriving instance DecidableEq for Except

/-- The outcome of the single `requests.get` call a fetcher makes:
either the call raises (timeout / connection error, both
`requests.exceptions.RequestException`), or it returns a response with a
status code, a Content-Type header and a body, the body already parsed
into the shape `β` the fetcher reads it as. -/
inductive HttpOutcome (β : Type) where
  | timeout
  | connError
  | response (status : Nat) (contentType : String) (body : β)
deriving DecidableEq, Repr

/- ------------------------------------------------------------------ -/
/- Keyword normalization (app.py lines 320-324, top-level script)      -/
/- ------------------------------------------------------------------ -/

/-- The double-quote character. -/
def quoteChar : Char := '\"'

/-- Python `search_keyword.strip('"')`: remove every leading and every
trailing double-quote character; interior quotes are kept. -/
def strip_quotes (s : String) : String :=
  String.mk (((s.toList.dropWhile (fun c => c = quoteChar)).reverse.dropWhile
    (fun c => c = quoteChar)).reverse)

/-- Python `search_keyword.replace(' ', '+')`; since the pattern is the
single character `' '`, this is a character-wise map. -/
def replace_spaces (s : String) : String :=
  String.mk (s.toList.map (fun c => if c = ' ' then '+' else c))

/-- Python `.strip()` with no argument, as used on scraped cell text:
remove leading and trailing whitespace. Written over the character list
so that it evaluates by kernel reduction. -/
def strip_whitespace (s : String) : String :=
  String.mk (((s.toList.dropWhile Char.isWhitespace).reverse.dropWhile
    Char.isWhitespace).reverse)

/-- The keyword normalization of the top-level script (app.py 320-324):

```
if search_keyword:
    if '"' in search_keyword:
        search_keyword = search_keyword.strip('"')
    else:
        search_keyword = search_keyword.replace(' ', '+')
```

The empty string is falsy, so the search block is skipped and no term is
produced; any other input yields exactly one search term. -/
def normalize_keyword (raw : String) : List String :=
  if raw = "" then []
  else if raw.toList.contains quoteChar then [strip_quotes raw]
  else [replace_spaces raw]

/- ------------------------------------------------------------------ -/
/- Helper lemmas about the normalizer                                  -/
/- ------------------------------------------------------------------ -/

theorem head_dropWhile_not {α : Type} (p : α → Bool) (l : List α) :
    ∀ x, (l.dropWhile p).head? = some x → p x = false := by
  induction l with
  | nil => intro x h; simp [List.dropWhile] at h
  | cons a as ih =>
    intro x h
    by_cases hpa : p a = true
    · rw [List.dropWhile_cons_of_pos hpa] at h
      exact ih x h
    · rw [List.dropWhile_cons_of_neg hpa] at h
      simp at h
      subst h
      simpa using hpa

theorem getLast?_of_suffix {α : Type} {l₁ l₂ : List α} (h : l₁ <:+ l₂)
    (hne : l₁ ≠ []) : l₁.getLast? = l₂.getLast? := by
  rcases h with ⟨t, rfl⟩
  exact (List.getLast?_append_of_ne_nil t hne).symm

theorem strip_quotes_head (s : String) (c : Char)
    (h : (strip_quotes s).toList.head? = some c) : c ≠ quoteChar := by
  have h' : (((s.toList.dropWhile (fun c => c = quoteChar)).reverse.dropWhile
      (fun c => c = quoteChar)).reverse).head? = some c := h
  rw [List.head?_reverse] at h'
  have hne : ((s.toList.dropWhile (fun c => c = quoteChar)).reverse.dropWhile
      (fun c => c = quoteChar)) ≠ [] := by
    intro hnil
    rw [hnil] at h'
    simp at h'
  rw [getLast?_of_suffix (List.dropWhile_suffix _) hne, List.getLast?_reverse] at h'
  have := head_dropWhile_not (fun c => decide (c = quoteChar)) s.toList c h'
  simpa using this

theorem strip_quotes_last (s : String) (c : Char)
    (h : (strip_quotes s).toList.getLast? = some c) : c ≠ quoteChar := by
  have h' : (((s.toList.dropWhile (fun c => c = quoteChar)).reverse.dropWhile
      (fun c => c = quoteChar)).reverse).getLast? = some c := h
  rw [List.getLast?_reverse] at h'
  have := head_dropWhile_not (fun c => decide (c = quoteChar)) _ c h'
  simpa using this

theorem replace_spaces_no_space (s : String) :
    (replace_spaces s).toList.contains ' ' = false := by
  show (s.toList.map (fun c => if c = ' ' then '+' else c)).contains ' ' = false
  generalize s.toList = l
  induction l with
  | nil => rfl
  | cons a as ih =>
    rw [List.map_cons, List.contains_cons, ih]
    by_cases ha : a = ' '
    · simp [ha]
    · simp [ha]
      exact fun hcontra => ha hcontra.symm

theorem replace_spaces_length (s : String) :
    (replace_spaces s).length = s.length := by
  show (s.toList.map (fun c => if c = ' ' then '+' else c)).length = s.toList.length
  simp

/- ------------------------------------------------------------------ -/
/- Claims C1-C3: the keyword normalizer                                -/
/- ------------------------------------------------------------------ -/

/-- C1 (counterexample): the claim says the input
`"botox" "dermal fillers"` yields the two terms `["botox", "dermal
fillers"]`; the script instead only strips leading and trailing quote
characters, yielding the single term `botox" "dermal fillers`. -/
theorem C1_counterexample :
    normalize_keyword "\"botox\" \"dermal fillers\"" =
      ["botox\" \"dermal fillers"] ∧
    normalize_keyword "\"botox\" \"dermal fillers\"" ≠
      ["botox", "dermal fillers"] := by
  constructor <;> decide

/-- C1 (amended): for every non-empty input containing a double-quote
character, the normalizer returns exactly one term — the input with all
leading and all trailing double-quote characters removed, so the term
neither starts nor ends with a quote (interior quotes are kept, and in
particular no splitting into per-segment terms happens). -/
theorem C1_amended (raw : String) (hne : raw ≠ "")
    (hq : raw.toList.contains quoteChar = true) :
    normalize_keyword raw = [strip_quotes raw] ∧
    (∀ c, (strip_quotes raw).toList.head? = some c → c ≠ quoteChar) ∧
    (∀ c, (strip_quotes raw).toList.getLast? = some c → c ≠ quoteChar) := by
  refine ⟨?_, fun c hc => strip_quotes_head raw c hc,
    fun c hc => strip_quotes_last raw c hc⟩
  unfold normalize_keyword
  rw [if_neg hne, if_pos hq]

/-- C1 witness: the amended theorem applied to the spec's own example
input. -/
theorem C1_witness :
    normalize_keyword "\"botox\" \"dermal fillers\"" =
      [strip_quotes "\"botox\" \"dermal fillers\""] :=
  (C1_amended "\"botox\" \"dermal fillers\"" (by decide) (by decide)).1

/-- C2 (counterexample): the claim says `botox, fillers` yields
`["botox", "fillers"]`; the script never splits on commas — it returns
the single term `botox,+fillers` (spaces replaced by `+`). -/
theorem C2_counterexample :
    normalize_keyword "botox, fillers" = ["botox,+fillers"] ∧
    normalize_keyword "botox, fillers" ≠ ["botox", "fillers"] := by
  constructor <;> decide

/-- C2 (amended): for every non-empty input with no double-quote
character (comma or not), the normalizer returns exactly one term — the
input with every space replaced by `+` — of the same length as the input
and containing no space; it never splits on commas. -/
theorem C2_amended (raw : String) (hne : raw ≠ "")
    (hq : raw.toList.contains quoteChar = false) :
    normalize_keyword raw = [replace_spaces raw] ∧
    (replace_spaces raw).length = raw.length ∧
    (replace_spaces raw).toList.contains ' ' = false := by
  refine ⟨?_, replace_spaces_length raw, replace_spaces_no_space raw⟩
  unfold normalize_keyword
  have hq' : ¬ (raw.toList.contains quoteChar = true) := by
    rw [hq]
    exact Bool.false_ne_true
  rw [if_neg hne, if_neg hq']

/-- C2 witness: the amended theorem applied to the spec's own example
input. -/
theorem C2_witness :
    normalize_keyword "botox, fillers" = [replace_spaces "botox, fillers"] :=
  (C2_amended "botox, fillers" (by decide) (by decide)).1

/-- C3 (counterexample): the claim says whitespace-only input fails with
`EmptyInput` and produces no search term; the script checks truthiness
before any trimming, so the input `" "` is truthy and proceeds, producing
the search term `"+"`. -/
theorem C3_counterexample :
    normalize_keyword " " = ["+"] ∧ normalize_keyword " " ≠ [] := by
  constructor <;> decide

/-- C3 (amended): only the exactly-empty input produces no search term
(the search block is skipped, with no error of any kind); every other
input — including whitespace-only input, which is never trimmed —
proceeds and produces exactly one search term. -/
theorem C3_amended :
    normalize_keyword "" = [] ∧
    normalize_keyword " " = ["+"] ∧
    (∀ raw : String, raw ≠ "" → (normalize_keyword raw).length = 1) := by
  refine ⟨by decide, by decide, fun raw hne => ?_⟩
  unfold normalize_keyword
  rw [if_neg hne]
  by_cases hq : raw.toList.contains quoteChar = true
  · rw [if_pos hq]
    rfl
  · rw [if_neg hq]
    rfl

/-- C3 witness: the amended theorem applied at the concrete input
`"botox"`. -/
theorem C3_witness : (normalize_keyword "botox").length = 1 :=
  C3_amended.2.2 "botox" (by decide)

/- ------------------------------------------------------------------ -/
/- Fetchers: JSON APIs (app.py 43-65, 140-159)                         -/
/- ------------------------------------------------------------------ -/

/-- Does `response.raise_for_status()` raise? `requests` raises
`HTTPError` exactly for 4xx client errors and 5xx server errors. -/
def raise_for_status_raises (status : Nat) : Prop :=
  400 ≤ status ∧ status < 600

instance (status : Nat) : Decidable (raise_for_status_raises status) := by
  unfold raise_for_status_raises
  exact instDecidableAnd

/-- Python `pat in s` on strings: substring containment.
`chars_start pat l` is `l` beginning with `pat`. -/
def chars_start : List Char → List Char → Bool
  | [], _ => true
  | _ :: _, [] => false
  | p :: ps, c :: cs => p = c && chars_start ps cs

def chars_contain (pat : List Char) : List Char → Bool
  | [] => chars_start pat []
  | c :: cs => chars_start pat (c :: cs) || chars_contain pat cs

/-- Python `'application/json' in response.headers.get('Content-Type', '')`. -/
def content_type_is_json (contentType : String) : Bool :=
  chars_contain "application/json".toList contentType.toList

/-- The parsed JSON body shape read by `fetch_clinical_trials_usa`:
`data.get('StudyFieldsResponse', {}).get('StudyFields', [])`. -/
structure StudyFieldsBody where
  studyFieldsResponse : Option (Option (List Record))
deriving DecidableEq, Repr

/-- `data.get('StudyFieldsResponse', {}).get('StudyFields', [])`:
a missing outer key gives `{}`, whose inner `.get` gives `[]`;
a missing inner key also gives `[]`. -/
def StudyFieldsBody.trials (body : StudyFieldsBody) : List Record :=
  match body.studyFieldsResponse with
  | none => []
  | some inner => inner.getD []

/-- `fetch_clinical_trials_usa` (app.py 43-65): sends one GET with
`max_rnk = max_results` among the query parameters and processes the
outcome. A raised `RequestException` (timeout, connection error, or the
`HTTPError` from `raise_for_status`) is caught: the fetcher reports and
returns `[]`. On success it requires a JSON Content-Type, reads the
trials list from the documented shape, and returns it **without any
client-side cap**. -/
def fetch_clinical_trials_usa (keyword url : String) (max_results : Nat)
    (out : HttpOutcome StudyFieldsBody) : List Record × List Report :=
  match out with
  | .timeout => ([], [.fetchError])
  | .connError => ([], [.fetchError])
  | .response status contentType body =>
    if raise_for_status_raises status then ([], [.fetchError])
    else if content_type_is_json contentType then
      let trials := body.trials
      (trials, if trials.isEmpty then [.noResults] else [])
    else ([], [.formatError])

/-- The parsed JSON body shape read by `fetch_drug_approvals_usa`:
`data.get('results', [])`. -/
structure NdcBody where
  results : Option (List Record)
deriving DecidableEq, Repr

/-- `fetch_drug_approvals_usa` (app.py 140-159): sends one GET with
`limit = max_results` among the query parameters; same outcome handling
as `fetch_clinical_trials_usa`, with the hits read from
`data.get('results', [])`, again without any client-side cap. -/
def fetch_drug_approvals_usa (keyword url : String) (max_results : Nat)
    (out : HttpOutcome NdcBody) : List Record × List Report :=
  match out with
  | .timeout => ([], [.fetchError])
  | .connError => ([], [.fetchError])
  | .response status contentType body =>
    if raise_for_status_raises status then ([], [.fetchError])
    else if content_type_is_json contentType then
      let approvals := body.results.getD []
      (approvals, if approvals.isEmpty then [.noResults] else [])
    else ([], [.formatError])

/- ------------------------------------------------------------------ -/
/- Fetchers: HTML scrapers (app.py 69-90, 118-138, 231-252)            -/
/- ------------------------------------------------------------------ -/

/-- One row matched by the fetcher's CSS selector: the texts of its
`td` cells in order (`row.find_all('td')`), and the `href` of its first
anchor if the row has one (`row.find('a')`). -/
structure HtmlRow where
  tds : List String
  firstA : Option String
deriving DecidableEq, Repr

/-- Python list indexing `cols[i]`: raises `IndexError` out of range. -/
def py_index {α : Type} (l : List α) (i : Nat) : Except PyError α :=
  match l.get? i with
  | some a => .ok a
  | none => .error .indexError

/-- Python `row.find('a')['href']`: subscripting the `None` returned by
a failed `find` raises `TypeError`. -/
def py_first_href (row : HtmlRow) : Except PyError String :=
  match row.firstA with
  | some href => .ok href
  | none => .error .typeError

/-- `List.mapM` for `Except`, written recursively so the first raised
error aborts the whole traversal, as an uncaught exception aborts the
Python `for` loop (the partially built list is discarded). -/
def map_except {α β : Type} (f : α → Except PyError β) :
    List α → Except PyError (List β)
  | [] => .ok []
  | a :: as =>
    match f a with
    | .error e => .error e
    | .ok b =>
      match map_except f as with
      | .error e => .error e
      | .ok bs => .ok (b :: bs)

/-- The per-row extraction of `fetch_clinical_trials_eu` (app.py 76-84):
`cols[0]` through `cols[4]` (5 cells), each `.text.strip()`, and a link
built as `url + cols[0].text.strip()`. -/
def extract_row_eu (url : String) (row : HtmlRow) : Except PyError Record := do
  let c0 ← py_index row.tds 0
  let c1 ← py_index row.tds 1
  let c2 ← py_index row.tds 2
  let c3 ← py_index row.tds 3
  let c4 ← py_index row.tds 4
  .ok [("EudraCT Number", strip_whitespace c0), ("Title", strip_whitespace c1),
       ("Status", strip_whitespace c2), ("Start Date", strip_whitespace c3),
       ("End Date", strip_whitespace c4), ("Link", url ++ strip_whitespace c0)]

/-- `fetch_clinical_trials_eu` (app.py 69-90): GET, then scrape
`table.results tbody tr`, capped by slicing `[:max_results]`; the
`except` clause catches only `RequestException`, so an `IndexError`
raised by a short row escapes the fetcher. -/
def fetch_clinical_trials_eu (keyword url : String) (max_results : Nat)
    (out : HttpOutcome (List HtmlRow)) :
    Except PyError (List Record × List Report) :=
  match out with
  | .timeout => .ok ([], [.fetchError])
  | .connError => .ok ([], [.fetchError])
  | .response status contentType rows =>
    if raise_for_status_raises status then .ok ([], [.fetchError])
    else
      match map_except (extract_row_eu url) (rows.take max_results) with
      | .error e => .error e
      | .ok trials => .ok (trials, if trials.isEmpty then [.noResults] else [])

/-- The per-row extraction of `fetch_clinical_trials_canada`
(app.py 125-132): `cols[0]` through `cols[3]` (4 cells) and
`row.find('a')['href']`, evaluated in the dict literal's order. -/
def extract_row_canada (row : HtmlRow) : Except PyError Record := do
  let c0 ← py_index row.tds 0
  let c1 ← py_index row.tds 1
  let c2 ← py_index row.tds 2
  let c3 ← py_index row.tds 3
  let link ← py_first_href row
  .ok [("Protocol Number", strip_whitespace c0), ("Title", strip_whitespace c1),
       ("Status", strip_whitespace c2), ("Date", strip_whitespace c3),
       ("Link", link)]

/-- `fetch_clinical_trials_canada` (app.py 118-138): GET, scrape
`table tbody tr` capped by `[:max_results]`; only `RequestException`
is caught, so `IndexError`/`TypeError` from a deficient row escape. -/
def fetch_clinical_trials_canada (keyword url : String) (max_results : Nat)
    (out : HttpOutcome (List HtmlRow)) :
    Except PyError (List Record × List Report) :=
  match out with
  | .timeout => .ok ([], [.fetchError])
  | .connError => .ok ([], [.fetchError])
  | .response status contentType rows =>
    if raise_for_status_raises status then .ok ([], [.fetchError])
    else
      match map_except extract_row_canada (rows.take max_results) with
      | .error e => .error e
      | .ok trials => .ok (trials, if trials.isEmpty then [.noResults] else [])

/-- The per-row extraction of `fetch_medical_device_approvals_usa`
(app.py 238-246): here `link = row.find('a')['href']` is evaluated
BEFORE the dict literal indexes `cols[0]` through `cols[3]`. -/
def extract_row_device_usa (row : HtmlRow) : Except PyError Record := do
  let link ← py_first_href row
  let c0 ← py_index row.tds 0
  let c1 ← py_index row.tds 1
  let c2 ← py_index row.tds 2
  let c3 ← py_index row.tds 3
  .ok [("510(k) Number", strip_whitespace c0), ("Device Name", strip_whitespace c1),
       ("Decision Date", strip_whitespace c2), ("Applicant", strip_whitespace c3),
       ("Link", link)]

/-- `fetch_medical_device_approvals_usa` (app.py 231-252): GET, scrape
`table tbody tr` capped by `[:max_results]`; only `RequestException`
is caught. -/
def fetch_medical_device_approvals_usa (keyword url : String)
    (max_results : Nat) (out : HttpOutcome (List HtmlRow)) :
    Except PyError (List Record × List Report) :=
  match out with
  | .timeout => .ok ([], [.fetchError])
  | .connError => .ok ([], [.fetchError])
  | .response status contentType rows =>
    if raise_for_status_raises status then .ok ([], [.fetchError])
    else
      match map_except extract_row_device_usa (rows.take max_results) with
      | .error e => .error e
      | .ok approvals =>
        .ok (approvals, if approvals.isEmpty then [.noResults] else [])

/-- `fetch_medical_device_approvals_eu` (app.py 254-255): a placeholder
that performs no request and unconditionally returns the empty list. -/
def fetch_medical_device_approvals_eu (keyword url : String)
    (max_results : Nat) : List Record :=
  []

/- ------------------------------------------------------------------ -/
/- Source registry and dispatch (app.py 14-33, 328-334)                -/
/- ------------------------------------------------------------------ -/

/-- The registry of endpoints, in the stored (insertion) order of the
Python dict `initial_authorities` (app.py 14-33):
category -> country -> endpoint URL. -/
def initial_authorities : List (String × List (String × String)) :=
  [("clinical_trials",
    [("usa", "https://clinicaltrials.gov/api/query/study_fields"),
     ("eu", "https://www.clinicaltrialsregister.eu/ctr-search/search"),
     ("anz", "https://www.anzctr.org.au/TrialSearch.aspx"),
     ("canada", "https://health-products.canada.ca/ctdb-bdec/searchsite")]),
   ("drug_approvals",
    [("usa", "https://api.fda.gov/drug/ndc.json"),
     ("eu", "https://www.ema.europa.eu/en/medicines"),
     ("australia", "https://www.tga.gov.au/search-node"),
     ("canada", "https://health-products.canada.ca/dpd-bdpp/index-eng.jsp")]),
   ("medical_device_approvals",
    [("usa", "https://www.accessdata.fda.gov/scripts/cdrh/cfdocs/cfPMN/pmn.cfm"),
     ("eu", "https://ec.europa.eu/tools/eudamed"),
     ("australia", "https://www.tga.gov.au/search/node"),
     ("canada", "https://health-products.canada.ca/mdall-limh")])]

/-- Endpoint lookup in a registry. -/
def lookup_endpoint (auth : List (String × List (String × String)))
    (category country : String) : Option String :=
  match auth.lookup category with
  | some countries => countries.lookup country
  | none => none

/-- All (category, country) pairs of a registry, in stored order. -/
def registry_pairs (auth : List (String × List (String × String))) :
    List (String × String) :=
  auth.flatMap (fun ce => ce.2.map (fun cu => (ce.1, cu.1)))

/-- The names of the module-level `fetch_*` functions defined in app.py
(the keys of `globals()` that the dispatch can hit). -/
def defined_fetcher_names : List String :=
  ["fetch_clinical_trials_usa", "fetch_clinical_trials_eu",
   "fetch_clinical_trials_anz", "fetch_clinical_trials_canada",
   "fetch_drug_approvals_usa", "fetch_drug_approvals_eu",
   "fetch_drug_approvals_australia", "fetch_drug_approvals_canada",
   "fetch_medical_device_approvals_usa", "fetch_medical_device_approvals_eu",
   "fetch_medical_device_approvals_australia",
   "fetch_medical_device_approvals_canada"]

/-- The name the aggregation loop constructs (app.py 333):
`f"fetch_{category}_{country}"`. -/
def fetch_function_name (category country : String) : String :=
  "fetch_" ++ category ++ "_" ++ country

/-- How the dispatch at app.py 333 can fail. `keyError` is the
`KeyError` a failed `globals()[...]` subscript raises; `unknownSource`
is the error the spec's taxonomy prescribes — it exists in this type
only so the spec's claim is statable, the code never produces it. -/
inductive DispatchError where
  | keyError
  | unknownSource
deriving DecidableEq, Repr

/-- The dispatch of the aggregation loop (app.py 333):
`fetch_function = globals()[f"fetch_{category}_{country}"]` — the
function is found by constructing its name from the category and the
country and subscripting the module's global namespace; a name with no
matching module-level function raises `KeyError`. -/
def dispatch_fetcher (category country : String) :
    Except DispatchError String :=
  if defined_fetcher_names.contains (fetch_function_name category country)
  then .ok (fetch_function_name category country)
  else .error .keyError

/-- Modelled from the spec: `add_source(category, country, url) ->
success/failure`, failure exactly when the category is unknown; on
success the binding country -> url is inserted into the registry entry
for that category (an existing binding for the same country is
shadowed). The runtime add-source mechanism is described by the spec
(sections 2 and 6) but is absent from the source file src/app.py, which
only installs the fixed `initial_authorities`. -/
def add_source (auth : List (String × List (String × String)))
    (category country url : String) :
    Option (List (String × List (String × String))) :=
  match auth.lookup category with
  | none => none
  | some _ =>
    some (auth.map (fun ce =>
      if ce.1 = category then (ce.1, (country, url) :: ce.2) else ce))

/- ------------------------------------------------------------------ -/
/- Helper lemmas about map_except and the row extractors               -/
/- ------------------------------------------------------------------ -/

theorem map_except_length {α β : Type} (f : α → Except PyError β) :
    ∀ (l : List α) (ys : List β), map_except f l = .ok ys →
      ys.length = l.length := by
  intro l
  induction l with
  | nil =>
    intro ys h
    unfold map_except at h
    injection h with h'
    rw [← h']
    rfl
  | cons a as ih =>
    intro ys h
    unfold map_except at h
    cases hf : f a with
    | error e =>
      rw [hf] at h
      exact Except.noConfusion h
    | ok b =>
      rw [hf] at h
      cases hm : map_except f as with
      | error e =>
        rw [hm] at h
        exact Except.noConfusion h
      | ok bs =>
        rw [hm] at h
        injection h with h'
        rw [← h']
        simp [ih bs hm]

theorem map_except_ok_forall {α β : Type} (f : α → Except PyError β) :
    ∀ (l : List α) (ys : List β), map_except f l = .ok ys →
      ∀ a ∈ l, ∃ b, f a = .ok b := by
  intro l
  induction l with
  | nil =>
    intro ys _ a ha
    exact absurd ha (List.not_mem_nil a)
  | cons x as ih =>
    intro ys h a ha
    unfold map_except at h
    cases hf : f x with
    | error e =>
      rw [hf] at h
      exact Except.noConfusion h
    | ok b =>
      rw [hf] at h
      cases hm : map_except f as with
      | error e =>
        rw [hm] at h
        exact Except.noConfusion h
      | ok bs =>
        rcases List.mem_cons.mp ha with rfl | hmem
        · exact ⟨b, hf⟩
        · exact ih bs hm a hmem

theorem map_except_mem_ok {α β : Type} (f : α → Except PyError β) :
    ∀ (l : List α) (ys : List β), map_except f l = .ok ys →
      ∀ b ∈ ys, ∃ a ∈ l, f a = .ok b := by
  intro l
  induction l with
  | nil =>
    intro ys h b hb
    unfold map_except at h
    injection h with h'
    rw [← h'] at hb
    exact absurd hb (List.not_mem_nil b)
  | cons x as ih =>
    intro ys h b hb
    unfold map_except at h
    cases hf : f x with
    | error e =>
      rw [hf] at h
      exact Except.noConfusion h
    | ok b' =>
      rw [hf] at h
      cases hm : map_except f as with
      | error e =>
        rw [hm] at h
        exact Except.noConfusion h
      | ok bs =>
        rw [hm] at h
        injection h with h'
        rw [← h'] at hb
        rcases List.mem_cons.mp hb with rfl | hmem
        · exact ⟨x, List.mem_cons_self x as, hf⟩
        · obtain ⟨a, hal, hfa⟩ := ih bs hm b hmem
          exact ⟨a, List.mem_cons_of_mem x hal, hfa⟩

theorem map_except_error_of_bad {α β : Type} (f : α → Except PyError β)
    (l : List α) (a : α) (ha : a ∈ l) (hbad : ∀ b, f a ≠ .ok b) :
    ∃ e, map_except f l = .error e := by
  cases hm : map_except f l with
  | error e => exact ⟨e, rfl⟩
  | ok ys =>
    obtain ⟨b, hb⟩ := map_except_ok_forall f l ys hm a ha
    exact absurd hb (hbad b)

theorem extract_row_eu_ok_length (url : String) (row : HtmlRow) (b : Record)
    (h : extract_row_eu url row = .ok b) : 5 ≤ row.tds.length := by
  rcases row with ⟨tds, fa⟩
  rcases tds with _ | ⟨t0, _ | ⟨t1, _ | ⟨t2, _ | ⟨t3, _ | ⟨t4, rest⟩⟩⟩⟩⟩
  · exact Except.noConfusion h
  · exact Except.noConfusion h
  · exact Except.noConfusion h
  · exact Except.noConfusion h
  · exact Except.noConfusion h
  · simp only [List.length_cons]
    omega

theorem extract_row_eu_ok_keys (url : String) (row : HtmlRow) (b : Record)
    (h : extract_row_eu url row = .ok b) :
    b.map Prod.fst =
      ["EudraCT Number", "Title", "Status", "Start Date", "End Date", "Link"] := by
  rcases row with ⟨tds, fa⟩
  rcases tds with _ | ⟨t0, _ | ⟨t1, _ | ⟨t2, _ | ⟨t3, _ | ⟨t4, rest⟩⟩⟩⟩⟩
  · exact Except.noConfusion h
  · exact Except.noConfusion h
  · exact Except.noConfusion h
  · exact Except.noConfusion h
  · exact Except.noConfusion h
  · injection h with h'
    rw [← h']
    rfl

theorem extract_row_canada_ok_shape (row : HtmlRow) (b : Record)
    (h : extract_row_canada row = .ok b) :
    4 ≤ row.tds.length ∧ row.firstA.isSome = true := by
  rcases row with ⟨tds, fa⟩
  rcases tds with _ | ⟨t0, _ | ⟨t1, _ | ⟨t2, _ | ⟨t3, rest⟩⟩⟩⟩
  · exact Except.noConfusion h
  · exact Except.noConfusion h
  · exact Except.noConfusion h
  · exact Except.noConfusion h
  · rcases fa with _ | href
    · exact Except.noConfusion h
    · refine ⟨?_, rfl⟩
      simp only [List.length_cons]
      omega

theorem extract_row_device_usa_ok_shape (row : HtmlRow) (b : Record)
    (h : extract_row_device_usa row = .ok b) :
    4 ≤ row.tds.length ∧ row.firstA.isSome = true := by
  rcases row with ⟨tds, fa⟩
  rcases fa with _ | href
  · exact Except.noConfusion h
  · rcases tds with _ | ⟨t0, _ | ⟨t1, _ | ⟨t2, _ | ⟨t3, rest⟩⟩⟩⟩
    · exact Except.noConfusion h
    · exact Except.noConfusion h
    · exact Except.noConfusion h
    · exact Except.noConfusion h
    · refine ⟨?_, rfl⟩
      simp only [List.length_cons]
      omega

/- ------------------------------------------------------------------ -/
/- Claim C4: aggregation-loop dispatch                                 -/
/- ------------------------------------------------------------------ -/

/-- Does the dispatch find a fetcher for the pair? -/
def dispatch_resolves (category country : String) : Bool :=
  match dispatch_fetcher category country with
  | .ok _ => true
  | .error _ => false

/-- C4 (counterexample): the claim says dispatching to the unregistered
pair (drug_approvals, mars) fails with `UnknownSource`; the code's
`globals()[f"fetch_drug_approvals_mars"]` subscript fails with a plain
`KeyError` lookup failure instead, and the binding for registered pairs
is exactly name construction, not a direct registry lookup. -/
theorem C4_counterexample :
    dispatch_fetcher "drug_approvals" "mars" =
      Except.error DispatchError.keyError ∧
    dispatch_fetcher "drug_approvals" "mars" ≠
      Except.error DispatchError.unknownSource := by
  constructor <;> decide

/-- C4 (amended): dispatch constructs the function name
`fetch_{category}_{country}` and subscripts the module's global
namespace with it; any pair whose constructed name matches no defined
module-level function fails with a `KeyError` lookup failure — never
with `UnknownSource` — while every pair of the default registry happens
to resolve because a function of the constructed name exists for it. -/
theorem C4_amended :
    (∀ category country,
        defined_fetcher_names.contains
          (fetch_function_name category country) = false →
        dispatch_fetcher category country =
          Except.error DispatchError.keyError) ∧
    (registry_pairs initial_authorities).all
      (fun p => dispatch_resolves p.1 p.2) = true := by
  refine ⟨fun category country h => ?_, by decide⟩
  have hc : ¬ (defined_fetcher_names.contains
      (fetch_function_name category country) = true) := by
    rw [h]
    exact Bool.false_ne_true
  unfold dispatch_fetcher
  rw [if_neg hc]

/-- C4 witness: the amended theorem applied at a concrete unregistered
pair. -/
theorem C4_witness :
    dispatch_fetcher "drug_approvals" "venus" =
      Except.error DispatchError.keyError :=
  C4_amended.1 "drug_approvals" "venus" (by decide)

/- ------------------------------------------------------------------ -/
/- Claim C5: transport failures at the fetcher boundary                -/
/- ------------------------------------------------------------------ -/

/-- C5 (counterexample): the claim covers every non-2xx status, but
`raise_for_status` only raises for 4xx/5xx; on a 304 response carrying a
JSON body the fetcher does not report `FetchError` — it proceeds and
returns the body's records. -/
theorem C5_counterexample :
    fetch_clinical_trials_usa "botox" "http://api.test" 100
      (.response 304 "application/json"
        ⟨some (some [[("NCTId", "NCT001")]])⟩) =
      ([[("NCTId", "NCT001")]], []) ∧
    fetch_clinical_trials_usa "botox" "http://api.test" 100
      (.response 304 "application/json"
        ⟨some (some [[("NCTId", "NCT001")]])⟩) ≠
      ([], [Report.fetchError]) := by
  constructor <;> decide

/-- C5 (amended): every transport failure that raises — a timeout, a
connection error, or the `HTTPError` that `raise_for_status` raises for
a 4xx/5xx status — is caught at the fetcher boundary and converted into
an empty record list plus a reported `FetchError`, for the JSON fetcher
and the HTML fetcher alike (in particular nothing propagates: the HTML
fetcher returns `.ok`); non-2xx statuses outside 400-599 are not
treated as failures. -/
theorem C5_amended (keyword url : String) (max_results status : Nat)
    (contentType : String) (jbody : StudyFieldsBody) (rows : List HtmlRow)
    (hs : 400 ≤ status) (hs' : status < 600) :
    fetch_clinical_trials_usa keyword url max_results .timeout =
      ([], [Report.fetchError]) ∧
    fetch_clinical_trials_usa keyword url max_results .connError =
      ([], [Report.fetchError]) ∧
    fetch_clinical_trials_usa keyword url max_results
      (.response status contentType jbody) = ([], [Report.fetchError]) ∧
    fetch_clinical_trials_canada keyword url max_results .timeout =
      .ok ([], [Report.fetchError]) ∧
    fetch_clinical_trials_canada keyword url max_results .connError =
      .ok ([], [Report.fetchError]) ∧
    fetch_clinical_trials_canada keyword url max_results
      (.response status contentType rows) = .ok ([], [Report.fetchError]) := by
  refine ⟨rfl, rfl, ?_, rfl, rfl, ?_⟩
  · simp only [fetch_clinical_trials_usa]
    rw [if_pos ⟨hs, hs'⟩]
  · simp only [fetch_clinical_trials_canada]
    rw [if_pos ⟨hs, hs'⟩]

/-- C5 witness: the amended theorem applied at a concrete 500 response. -/
theorem C5_witness :
    fetch_clinical_trials_canada "botox" "http://ca.test" 100
      (.response 500 "text/html" []) = .ok ([], [Report.fetchError]) :=
  (C5_amended "botox" "http://ca.test" 100 500 "text/html" ⟨none⟩ []
    (by decide) (by decide)).2.2.2.2.2

/- ------------------------------------------------------------------ -/
/- Claim C6: non-JSON content type on a successful response            -/
/- ------------------------------------------------------------------ -/

/-- C6: for both JSON-API fetchers, a successful (2xx) response whose
Content-Type header is not JSON yields an empty record list and a
reported `FormatError`; the body is never parsed. -/
theorem C6_format_error (keyword url : String) (max_results status : Nat)
    (contentType : String) (jbody : StudyFieldsBody) (nbody : NdcBody)
    (h2 : 200 ≤ status) (h2' : status < 300)
    (hct : content_type_is_json contentType = false) :
    fetch_clinical_trials_usa keyword url max_results
      (.response status contentType jbody) = ([], [Report.formatError]) ∧
    fetch_drug_approvals_usa keyword url max_results
      (.response status contentType nbody) = ([], [Report.formatError]) := by
  have hnr : ¬ raise_for_status_raises status := by
    intro hr
    unfold raise_for_status_raises at hr
    omega
  have hct' : ¬ (content_type_is_json contentType = true) := by
    rw [hct]
    exact Bool.false_ne_true
  constructor
  · simp only [fetch_clinical_trials_usa]
    rw [if_neg hnr, if_neg hct']
  · simp only [fetch_drug_approvals_usa]
    rw [if_neg hnr, if_neg hct']

/-- C6 witness: the theorem applied at a concrete 200 response with an
HTML content type. -/
theorem C6_witness :
    fetch_clinical_trials_usa "botox" "http://api.test" 100
      (.response 200 "text/html; charset=utf-8" ⟨none⟩) =
      ([], [Report.formatError]) :=
  (C6_format_error "botox" "http://api.test" 100 200
    "text/html; charset=utf-8" ⟨none⟩ ⟨none⟩
    (by decide) (by decide) (by decide)).1

/- ------------------------------------------------------------------ -/
/- Claim C7: rows with missing sub-elements                            -/
/- ------------------------------------------------------------------ -/

/-- C7 (counterexample): the claim says a parsed row missing an expected
sub-element is skipped and the fetcher never fails on it; a scraped row
with only 3 of the 5 expected `td` cells makes `fetch_clinical_trials_eu`
raise an uncaught `IndexError` instead. -/
theorem C7_counterexample :
    fetch_clinical_trials_eu "botox" "http://eu.test" 100
      (.response 200 "text/html"
        [⟨["2004-000012-11", "Some trial", "Ongoing"], none⟩]) =
      Except.error PyError.indexError := by
  decide

/-- C7 (amended): a parsed row missing an expected sub-element is NOT
skipped — it makes the fetcher fail with an uncaught error
(`IndexError`/`TypeError`), aborting the whole fetch; consequently no
partial record is ever returned: every record of a successful result
carries the full documented field set. -/
theorem C7_amended (keyword url : String) (max_results status : Nat)
    (contentType : String) (rows rows2 : List HtmlRow)
    (hnr : ¬ raise_for_status_raises status) :
    ((∃ row ∈ rows.take max_results, row.tds.length < 5) →
      ∃ e, fetch_clinical_trials_eu keyword url max_results
        (.response status contentType rows) = Except.error e) ∧
    ((∃ row ∈ rows2.take max_results,
        row.tds.length < 4 ∨ row.firstA = none) →
      ∃ e, fetch_clinical_trials_canada keyword url max_results
        (.response status contentType rows2) = Except.error e) ∧
    (∀ trials reports,
      fetch_clinical_trials_eu keyword url max_results
        (.response status contentType rows) = Except.ok (trials, reports) →
      ∀ r ∈ trials, r.map Prod.fst =
        ["EudraCT Number", "Title", "Status", "Start Date", "End Date",
         "Link"]) := by
  refine ⟨?_, ?_, ?_⟩
  · rintro ⟨row, hmem, hlen⟩
    have hbadf : ∀ b, extract_row_eu url row ≠ .ok b := by
      intro b hb
      have := extract_row_eu_ok_length url row b hb
      omega
    obtain ⟨e, hm⟩ := map_except_error_of_bad (extract_row_eu url)
      (rows.take max_results) row hmem hbadf
    refine ⟨e, ?_⟩
    simp only [fetch_clinical_trials_eu]
    rw [if_neg hnr, hm]
  · rintro ⟨row, hmem, hbad⟩
    have hbadf : ∀ b, extract_row_canada row ≠ .ok b := by
      intro b hb
      obtain ⟨hlen, hsome⟩ := extract_row_canada_ok_shape row b hb
      rcases hbad with hlt | hnone
      · omega
      · rw [hnone] at hsome
        exact Bool.noConfusion hsome
    obtain ⟨e, hm⟩ := map_except_error_of_bad extract_row_canada
      (rows2.take max_results) row hmem hbadf
    refine ⟨e, ?_⟩
    simp only [fetch_clinical_trials_canada]
    rw [if_neg hnr, hm]
  · intro trials reports h
    simp only [fetch_clinical_trials_eu] at h
    rw [if_neg hnr] at h
    cases hm : map_except (extract_row_eu url) (rows.take max_results) with
    | error e =>
      rw [hm] at h
      exact Except.noConfusion h
    | ok ys =>
      rw [hm] at h
      injection h with h'
      intro r hr
      have hys : ys = trials := congrArg Prod.fst h'
      rw [← hys] at hr
      obtain ⟨a, hal, hfa⟩ := map_except_mem_ok _ _ _ hm r hr
      exact extract_row_eu_ok_keys url a r hfa

/-- C7 witness: the amended theorem applied to a concrete single-cell
row. -/
theorem C7_witness :
    ∃ e, fetch_clinical_trials_eu "botox" "http://eu.test" 100
      (.response 200 "text/html" [⟨["lonely"], none⟩]) = Except.error e :=
  (C7_amended "botox" "http://eu.test" 100 200 "text/html"
    [⟨["lonely"], none⟩] [] (by decide)).1
    ⟨⟨["lonely"], none⟩, by decide, by decide⟩

/- ------------------------------------------------------------------ -/
/- Claim C8: max_results capping                                       -/
/- ------------------------------------------------------------------ -/

/-- C8 (counterexample): the claim says every fetcher returns at most
max_results records for every response; with max_results = 1,
`fetch_clinical_trials_usa` returns both records of a 2-hit JSON
response — the JSON fetchers only forward max_results to the server and
never cap client-side. -/
theorem C8_counterexample :
    ((fetch_clinical_trials_usa "botox" "http://api.test" 1
      (.response 200 "application/json"
        ⟨some (some [[("NCTId", "A")], [("NCTId", "B")]])⟩)).1).length = 2 ∧
    ¬ ((fetch_clinical_trials_usa "botox" "http://api.test" 1
      (.response 200 "application/json"
        ⟨some (some [[("NCTId", "A")], [("NCTId", "B")]])⟩)).1).length ≤ 1 := by
  constructor <;> decide

/-- C8 (amended): the HTML-scraping fetchers cap the scraped rows at
max_results by slicing, so a successful result never exceeds
max_results records; the JSON-API fetchers return the response's hit
list uncapped — for every max_results and every n there is a successful
JSON response on which the fetcher returns exactly n records. -/
theorem C8_amended (keyword url : String) (max_results status : Nat)
    (contentType : String) (rows : List HtmlRow) :
    (∀ trials reports,
      fetch_clinical_trials_eu keyword url max_results
        (.response status contentType rows) = Except.ok (trials, reports) →
      trials.length ≤ max_results) ∧
    (∀ trials reports,
      fetch_clinical_trials_canada keyword url max_results
        (.response status contentType rows) = Except.ok (trials, reports) →
      trials.length ≤ max_results) ∧
    (∀ n : Nat, ∃ body : StudyFieldsBody,
      ((fetch_clinical_trials_usa keyword url max_results
        (.response 200 "application/json" body)).1).length = n) := by
  refine ⟨?_, ?_, ?_⟩
  · intro trials reports h
    simp only [fetch_clinical_trials_eu] at h
    by_cases hnr : raise_for_status_raises status
    · rw [if_pos hnr] at h
      injection h with h'
      have h0 : ([] : List Record) = trials := congrArg Prod.fst h'
      rw [← h0]
      exact Nat.zero_le _
    · rw [if_neg hnr] at h
      cases hm : map_except (extract_row_eu url) (rows.take max_results) with
      | error e =>
        rw [hm] at h
        exact Except.noConfusion h
      | ok ys =>
        rw [hm] at h
        injection h with h'
        have hys : ys = trials := congrArg Prod.fst h'
        rw [← hys, map_except_length _ _ _ hm]
        exact List.length_take_le _ _
  · intro trials reports h
    simp only [fetch_clinical_trials_canada] at h
    by_cases hnr : raise_for_status_raises status
    · rw [if_pos hnr] at h
      injection h with h'
      have h0 : ([] : List Record) = trials := congrArg Prod.fst h'
      rw [← h0]
      exact Nat.zero_le _
    · rw [if_neg hnr] at h
      cases hm : map_except extract_row_canada (rows.take max_results) with
      | error e =>
        rw [hm] at h
        exact Except.noConfusion h
      | ok ys =>
        rw [hm] at h
        injection h with h'
        have hys : ys = trials := congrArg Prod.fst h'
        rw [← hys, map_except_length _ _ _ hm]
        exact List.length_take_le _ _
  · intro n
    refine ⟨⟨some (some (List.replicate n []))⟩, ?_⟩
    simp only [fetch_clinical_trials_usa]
    rw [if_neg (by decide : ¬ raise_for_status_raises 200),
      if_pos (by decide : content_type_is_json "application/json" = true)]
    show (List.replicate n ([] : Record)).length = n
    exact List.length_replicate n _

/-- C8 witness: the amended theorem's HTML cap applied at a concrete
complete row. -/
theorem C8_witness :
    ([[("EudraCT Number", "a"), ("Title", "b"), ("Status", "c"),
       ("Start Date", "d"), ("End Date", "e"),
       ("Link", "http://eu.testa")]] : List Record).length ≤ 5 :=
  (C8_amended "botox" "http://eu.test" 5 200 "text/html"
    [⟨["a", "b", "c", "d", "e"], none⟩]).1
    [[("EudraCT Number", "a"), ("Title", "b"), ("Status", "c"),
      ("Start Date", "d"), ("End Date", "e"), ("Link", "http://eu.testa")]]
    [] (by decide)

/- ------------------------------------------------------------------ -/
/- Claim C9: add_source and subsequent dispatch                        -/
/- ------------------------------------------------------------------ -/

theorem lookup_map_update (auth : List (String × List (String × String)))
    (category country url : String) (cs : List (String × String))
    (hl : auth.lookup category = some cs) :
    (auth.map (fun ce =>
      if ce.1 = category then (ce.1, (country, url) :: ce.2) else ce)).lookup
        category = some ((country, url) :: cs) := by
  induction auth with
  | nil => exact Option.noConfusion hl
  | cons a as ih =>
    rcases a with ⟨k, v⟩
    by_cases hk : k = category
    · subst hk
      rw [List.lookup] at hl
      rw [List.map_cons, if_pos rfl, List.lookup]
      simp only [beq_self_eq_true] at hl ⊢
      injection hl with hl'
      rw [hl']
    · have hbeq : (category == k) = false := by
        rw [beq_eq_false_iff_ne]
        exact fun hc => hk hc.symm
      rw [List.lookup, hbeq] at hl
      rw [List.map_cons, if_neg hk, List.lookup, hbeq]
      exact ih hl

/-- C9 (counterexample): the claim says `add_source("clinical_trials",
"uk", url)` followed by a dispatch to (clinical_trials, uk) succeeds and
routes to the new endpoint. The (spec-modelled) `add_source` does insert
the endpoint into the registry, but the dispatch of src/app.py then
constructs the name `fetch_clinical_trials_uk`, which matches no defined
function, so the dispatch fails with a `KeyError` lookup failure — the
new endpoint is never routed to. -/
theorem C9_counterexample :
    (add_source initial_authorities "clinical_trials" "uk"
      "http://example.test").isSome = true ∧
    lookup_endpoint ((add_source initial_authorities "clinical_trials" "uk"
        "http://example.test").getD []) "clinical_trials" "uk" =
      some "http://example.test" ∧
    dispatch_fetcher "clinical_trials" "uk" =
      Except.error DispatchError.keyError := by
  refine ⟨by decide, by decide, by decide⟩

/-- C9 (amended): `add_source` (modelled from the spec) fails exactly
when the category is unknown, and on success the new (country, url)
binding is visible in the registry; but a subsequent dispatch through
the program's name-construction mechanism succeeds only if a module
function with the constructed name exists — for (clinical_trials, uk)
none does, so the dispatch fails with a `KeyError` despite the
registration. -/
theorem C9_amended (auth : List (String × List (String × String)))
    (category country url : String) :
    (auth.lookup category = none →
      add_source auth category country url = none) ∧
    (∀ auth', add_source auth category country url = some auth' →
      lookup_endpoint auth' category country = some url) ∧
    dispatch_fetcher "clinical_trials" "uk" =
      Except.error DispatchError.keyError := by
  refine ⟨?_, ?_, by decide⟩
  · intro hl
    unfold add_source
    rw [hl]
  · intro auth' h
    unfold add_source at h
    cases hl : auth.lookup category with
    | none =>
      rw [hl] at h
      exact Option.noConfusion h
    | some cs =>
      rw [hl] at h
      injection h with h'
      rw [← h']
      unfold lookup_endpoint
      rw [lookup_map_update auth category country url cs hl]
      exact List.lookup_cons_self

/-- C9 witness: the amended theorem applied twice at concrete inputs —
once at an unknown category, once at a successful registration. -/
theorem C9_witness :
    add_source initial_authorities "gene_therapies" "uk"
      "http://x.test" = none ∧
    lookup_endpoint ((add_source initial_authorities "clinical_trials" "uk"
        "http://x2.test").getD []) "clinical_trials" "uk" =
      some "http://x2.test" :=
  ⟨(C9_amended initial_authorities "gene_therapies" "uk" "http://x.test").1
      (by decide),
   (C9_amended initial_authorities "clinical_trials" "uk" "http://x2.test").2.1
      _ (by decide)⟩

/- ------------------------------------------------------------------ -/
/- Claim C10: the EUDAMED placeholder                                  -/
/- ------------------------------------------------------------------ -/

/-- C10: `fetch_medical_device_approvals_eu` is a placeholder returning
the empty sequence for every keyword, endpoint and max_results, even
though the (medical_device_approvals, eu) pair is registered in the
default registry — so that pair can never contribute a record. -/
theorem C10_placeholder_empty (keyword url : String) (max_results : Nat) :
    fetch_medical_device_approvals_eu keyword url max_results = [] ∧
    lookup_endpoint initial_authorities "medical_device_approvals" "eu" =
      some "https://ec.europa.eu/tools/eudamed" :=
  ⟨rfl, by decide⟩
